import Mathlib

/-!
# Verification of the plemmy/aioplemmy client logic

Shallow embedding of the two pieces of logic in this repository:

* the identifier codec `id_b64_` / `b64_to_id` from `aioplemmy/objects.py`,
  together with a faithful model of CPython's `base64.urlsafe_b64encode` /
  `base64.urlsafe_b64decode` (the latter in its default non-strict mode, in
  which characters outside the alphabet are discarded and a terminating pad
  sequence stops processing, exactly as in `binascii.a2b_base64`);
* the request dispatcher `_fire_request` (and the `login` adapter and
  `LemmyError` class) from `plemmy/lemmyhttp.py`, including Python value
  semantics (`None` checks, truthiness of `typing` objects used as default
  argument values, `dict` filtering and item assignment) and the
  relevant aiohttp session semantics (`async with session` closes the
  session on exit; a request on a closed session raises `RuntimeError`).

Machine integers are modelled as `Nat` (bytes are `Nat`s below 256), strings
as Lean `String`/`List Char`, and fallible Python code returns `Option` or
`Except`.
-/

namespace Plemmy

/-! ## Base64 (urlsafe) alphabet, as used by `base64.urlsafe_b64encode` -/

/-- The 64-character base64 alphabet `A-Z a-z 0-9 + /` as a list;
index `i` holds the character encoding the 6-bit value `i`. -/
def alphaList : List Char :=
  "ABCDEFGHIJKLMNOPQRSTUVWXYZabcdefghijklmnopqrstuvwxyz0123456789-_".toList

/-- Character encoding a 6-bit value, urlsafe alphabet
(`urlsafe_b64encode` = standard encode then translate `+/` to `-_`;
we encode directly with `-_` at indices 62/63). Out-of-range values
never arise in the source (inputs are always `< 64`). -/
def b64char (v : Nat) : Char := alphaList.getD v 'A'

/-- Decoding table of `base64.urlsafe_b64decode`: the input is first
translated (`-` to `+`, `_` to `/`) and then looked up in the standard
table, so both `+`/`-` map to 62 and both `/`/`_` map to 63; every other
character outside `A-Z a-z 0-9` (including `=`) has no value. -/
def b64val (c : Char) : Option Nat :=
  if 65 ≤ c.toNat ∧ c.toNat ≤ 90 then some (c.toNat - 65)
  else if 97 ≤ c.toNat ∧ c.toNat ≤ 122 then some (c.toNat - 97 + 26)
  else if 48 ≤ c.toNat ∧ c.toNat ≤ 57 then some (c.toNat - 48 + 52)
  else if c = '+' ∨ c = '-' then some 62
  else if c = '/' ∨ c = '_' then some 63
  else none

/-- Base64 encoding of a byte list (3-byte groups to 4 characters, with
`=` padding), as `base64.b64encode` produces it. -/
def b64encode : List Nat → List Char
  | [] => []
  | [b0] => [b64char (b0 / 4), b64char (b0 % 4 * 16), '=', '=']
  | [b0, b1] => [b64char (b0 / 4), b64char (b0 % 4 * 16 + b1 / 16),
                 b64char (b1 % 16 * 4), '=']
  | b0 :: b1 :: b2 :: rest =>
      b64char (b0 / 4) :: b64char (b0 % 4 * 16 + b1 / 16) ::
      b64char (b1 % 16 * 4 + b2 / 64) :: b64char (b2 % 64) :: b64encode rest

/-- The state-machine loop of CPython's `binascii.a2b_base64` in its default
non-strict mode, as invoked by `base64.b64decode`: characters outside the
alphabet are skipped; a `=` is counted only when at least two data characters
of the current quad have been seen, and a completed pad sequence
(`quad_pos + pads >= 4`) terminates decoding successfully, discarding any
remaining input; input exhausted mid-quad is an error (`Incorrect padding` /
`number of data characters cannot be 1 more than a multiple of 4`). -/
def a2bLoop : List Char → Nat → Nat → Nat → List Nat → Option (List Nat)
  | [], quadPos, _, _, out => if quadPos = 0 then some out.reverse else none
  | c :: rest, quadPos, leftchar, pads, out =>
    if c = '=' then
      if 2 ≤ quadPos then
        if 4 ≤ quadPos + (pads + 1) then some out.reverse
        else a2bLoop rest quadPos leftchar (pads + 1) out
      else a2bLoop rest quadPos leftchar pads out
    else
      match b64val c with
      | none => a2bLoop rest quadPos leftchar pads out
      | some v =>
        match quadPos with
        | 0 => a2bLoop rest 1 v 0 out
        | 1 => a2bLoop rest 2 (v % 16) 0 ((leftchar * 4 + v / 16) :: out)
        | 2 => a2bLoop rest 3 (v % 4) 0 ((leftchar * 16 + v / 4) :: out)
        | _ => a2bLoop rest 0 0 0 ((leftchar * 64 + v) :: out)

/-- `base64.urlsafe_b64decode` on a Python `str`: the string is first encoded
as ASCII (a non-ASCII character raises `ValueError`), then fed to the
non-strict `a2b_base64` loop. `none` models the raised exception. -/
def urlsafe_b64decode (l : List Char) : Option (List Nat) :=
  if l.all (fun c => c.toNat < 128) then a2bLoop l 0 0 0 [] else none

/-! ## The identifier codec (`aioplemmy/objects.py`, `_LemmyObject`) -/

/-- `int.to_bytes(x, length=4, byteorder='little', signed=False)`:
the four little-endian bytes of `x`.  (`to_bytes` itself raises
`OverflowError` for `x ≥ 2^32`; that guard lives in `id_b64_`.) -/
def toBytesLE4 (x : Nat) : List Nat :=
  [x % 256, x / 256 % 256, x / 65536 % 256, x / 16777216 % 256]

/-- `int.from_bytes(bs, byteorder='little', signed=False)` for an
arbitrary-length byte string. -/
def fromBytesLE : List Nat → Nat
  | [] => 0
  | b :: rest => b + 256 * fromBytesLE rest

/-- The character set stripped by `rstrip(b'=A')`. -/
def isStripChar (c : Char) : Bool := c = '=' || c = 'A'

/-- `bytes.rstrip(b'=A')`: drop from the end every character that is `=`
or `A`. -/
def rstripEqA (l : List Char) : List Char :=
  (l.reverse.dropWhile isStripChar).reverse

/-- `str.ljust(n, 'A')`: pad on the right with `A` up to length `n`. -/
def ljustA (l : List Char) (n : Nat) : List Char :=
  l ++ List.replicate (n - l.length) 'A'

/-- `_LemmyObject.id_b64_` (objects.py lines 12-15):
`base64.urlsafe_b64encode(int.to_bytes(self.id, length=4,
byteorder='little', signed=False)).rstrip(b'=A').decode("ascii")`.
`none` models the `OverflowError` from `to_bytes` when the id does not
fit in 4 unsigned bytes. -/
def id_b64_ (x : Nat) : Option String :=
  if x < 2 ^ 32 then some ⟨rstripEqA (b64encode (toBytesLE4 x))⟩ else none

/-- `_LemmyObject.b64_to_id` (objects.py lines 17-20):
`id_ = id_.ljust(6, 'A') + '=='` then
`int.from_bytes(base64.urlsafe_b64decode(id_), byteorder='little',
signed=False)`.  `none` models the exception from `urlsafe_b64decode`. -/
def b64_to_id (s : String) : Option Nat :=
  (urlsafe_b64decode (ljustA s.toList 6 ++ ['=', '='])).map fromBytesLE

/-! ## When does `b64_to_id` fail?

The spec says decoding "fails with a decoding error if `code`, after
padding, is not valid base64url".  `specValidB64url` below renders the
spec's notion of a valid base64url string, to be compared with the
behaviour of the decoder actually called by the source
(CPython's non-strict `a2b_base64`). -/

/-- The padded form `code.ljust(6, 'A') + '=='` that `b64_to_id` feeds to
the base64 decoder. -/
def paddedForm (s : String) : List Char :=
  ljustA s.toList 6 ++ ['=', '=']

/-- Spec-side definition (for the refinement claim, following the spec's
words, not the source): a string is valid base64url when its length is a
multiple of 4, the characters before any padding are base64url alphabet
characters, and the padding is at most two trailing `=` characters. -/
def specValidB64url (l : List Char) : Bool :=
  decide (l.length % 4 = 0) &&
  (l.takeWhile fun c => !(c == '=')).all (fun c => (b64val c).isSome) &&
  ((l.dropWhile fun c => !(c == '=')).all fun c => c == '=') &&
  decide ((l.dropWhile fun c => !(c == '=')).length ≤ 2)


/-! ## The request dispatcher (`plemmy/lemmyhttp.py`) -/

/-- `API_VERSION = "v3"` (lemmyhttp.py line 6). -/
def API_VERSION : String := "v3"

/-- Python `str.lower` (ASCII case mapping, which covers every string the
source lowercases: HTTP method names). -/
def pyLower (s : String) : String := ⟨s.toList.map Char.toLower⟩

/-- Python `str.upper` (ASCII case mapping, applied by the source to remote
error codes such as `"not_found"`). -/
def pyUpper (s : String) : String := ⟨s.toList.map Char.toUpper⟩

/-- A Python value, as far as the dispatcher inspects one: `None`, strings,
integers, booleans, insertion-ordered dictionaries, opaque objects (such as
the `self` argument collected by `locals()`), and the `typing` special
forms that appear as the default argument values of `_fire_request`
(`data=Optional[dict]`, `form_in_params=Optional[bool]` are default
values, not annotations). -/
inductive PyVal where
  | none
  | str (s : String)
  | int (n : Int)
  | bool (b : Bool)
  | dict (entries : List (String × PyVal))
  | obj (className : String)
  | typingObj (name : String)

/-- Python `is None`. -/
def PyVal.isNone : PyVal → Bool
  | .none => true
  | _ => false

/-- Python truthiness: `None`, empty and zero values are falsy; objects and
`typing` special forms define no `__bool__`/`__len__` and are truthy. -/
def PyVal.truthy : PyVal → Bool
  | .none => false
  | .str s => !(s == "")
  | .int n => !(n == 0)
  | .bool b => b
  | .dict l => !l.isEmpty
  | .obj _ => true
  | .typingObj _ => true

/-- `data.items()`: defined on a dict; on any other receiver Python raises
`AttributeError` (modelled by `Option.none` here and turned into the error
at the call site). -/
def PyVal.items : PyVal → Option (List (String × PyVal))
  | .dict l => some l
  | _ => Option.none

/-- Python `d[k] = v` on an insertion-ordered dict: overwrite the value in
place when the key is present, append otherwise. -/
def dictSet (d : List (String × PyVal)) (k : String) (v : PyVal) :
    List (String × PyVal) :=
  if d.any fun kv => kv.1 == k then
    d.map fun kv => if kv.1 == k then (k, v) else kv
  else d ++ [(k, v)]

/-- Lookup in an insertion-ordered dict. -/
def dictGet (d : List (String × PyVal)) (k : String) : Option PyVal :=
  (d.find? fun kv => kv.1 == k).map (·.2)

/-- A JSON value, the result of deserializing a response body. -/
inductive Json where
  | null
  | str (s : String)
  | num (n : Int)
  | bool (b : Bool)
  | arr (elems : List Json)
  | obj (fields : List (String × Json))

/-- `j[k]` on a decoded JSON object; `Option.none` models the `KeyError`
(or `TypeError` on a non-object) Python raises. -/
def Json.get? : Json → String → Option Json
  | .obj fields, k => (fields.find? fun kv => kv.1 == k).map (·.2)
  | _, _ => Option.none

/-- The exceptions the dispatcher can raise.  `lemmyError` mirrors the
`LemmyError` class (lemmyhttp.py lines 1613-1617): a `RuntimeError`
carrying a message and an `error` field that defaults to `None`. -/
inductive PyErr where
  | lemmyError (message : String) (error : Option String)
  | attributeError (attr : String)
  | keyError (key : String)
  | runtimeError (message : String)
  | jsonDecodeError

/-- A mocked HTTP response: the status, the `content_type` of the body, and
the JSON parse of the body (`Option.none` when the body is not JSON). -/
structure HttpResponse where
  status : Nat
  content_type : String
  body : Option Json

/-- The single HTTP call `_fire_request` makes: the lowercased method, the
URL with the `/api/v3` prefix, and the filtered form, serialized either as
query parameters (`params=...`) or as a JSON body (`json=...`). -/
structure SentRequest where
  method : String
  url : String
  params : Option (List (String × PyVal))
  jsonBody : Option (List (String × PyVal))

/-- The declared default value of `_fire_request`'s `data` parameter: the
`typing` object `Optional[dict]` itself (line 30 reads `data=Optional[dict]`,
a default value, not a type annotation). -/
def dataDefault : PyVal := .typingObj "Optional[dict]"

/-- The declared default value of `_fire_request`'s `form_in_params`
parameter: the `typing` object `Optional[bool]` (line 31). -/
def formInParamsDefault : PyVal := .typingObj "Optional[bool]"

/-- First half of `_fire_request` (lemmyhttp.py lines 44-61): lowercase the
method, default `form_in_params` by `method == "get"` when it is `None`,
drop `None`-valued entries and the `"self"` entry from the form, inject the
auth key, and choose query-parameter or JSON-body serialization.  The
`AttributeError` from iterating a non-dict `data` is raised here, before
any network activity. -/
def buildRequest (key : Option String) (route : String) (method : String)
    (data : PyVal) (form_in_params : PyVal) : Except PyErr SentRequest :=
  let methodL := pyLower method
  let fip := if form_in_params.isNone then PyVal.bool (methodL == "get")
             else form_in_params
  let formE : Except PyErr (List (String × PyVal)) :=
    if !data.isNone then
      match data.items with
      | some items =>
        .ok (items.filter fun kv => !kv.2.isNone && !(kv.1 == "self"))
      | Option.none => .error (.attributeError "items")
    else .ok []
  match formE with
  | .error e => .error e
  | .ok form0 =>
    let form := match key with
      | some k => dictSet form0 "auth" (.str k)
      | Option.none => form0
    let url := "/api/" ++ API_VERSION ++ route
    if fip.truthy then .ok ⟨methodL, url, some form, Option.none⟩
    else .ok ⟨methodL, url, Option.none, some form⟩

/-- Second half of `_fire_request` (lines 63-72): translate the HTTP
response into the returned JSON value or a raised exception.  On a non-200
response with a JSON content type the body is parsed and
`LemmyError(f"[{status}] Lemmy API returned {error} exception", error)` is
raised with `error = error_resp["error"].upper()`; on a non-200 response
without a JSON content type
`LemmyError(f"[{status}] Generic error encountered while trying to
{method} {route}")` is raised with no error code; a 200 response is parsed
and returned as-is.  A body that fails to parse, a missing `"error"` key,
and a non-string `"error"` value map to the corresponding Python
exceptions. -/
def handleResponse (methodL route : String) (resp : HttpResponse) :
    Except PyErr Json :=
  if !(resp.status == 200) then
    if resp.content_type == "application/json" then
      match resp.body with
      | Option.none => .error .jsonDecodeError
      | some j =>
        match j.get? "error" with
        | Option.none => .error (.keyError "error")
        | some (.str e) =>
          .error (.lemmyError ("[" ++ toString resp.status ++
            "] Lemmy API returned " ++ pyUpper e ++ " exception")
            (some (pyUpper e)))
        | some _ => .error (.attributeError "upper")
    else
      .error (.lemmyError ("[" ++ toString resp.status ++
        "] Generic error encountered while trying to " ++ methodL ++ " " ++
        route) Option.none)
  else
    match resp.body with
    | some j => .ok j
    | Option.none => .error .jsonDecodeError

/-- The state a `LemmyHttp` instance reaches into across calls: the auth
key and the caller-supplied aiohttp `ClientSession`, of which we track the
one bit the dispatcher can change — whether it has been closed.  aiohttp
semantics: `async with session` returns the session and `close`s it on
block exit; a request on a closed session raises
`RuntimeError("Session is closed")`. -/
structure ClientState where
  key : Option String
  sessionClosed : Bool

/-- One full `_fire_request` call against a mocked transport: build the
request (errors here are raised before the `async with` block), enter
`async with self.client`, dispatch, and translate the response.  Returns
the outcome together with the client state after the call; the
`async with` block closes the session on exit whether the body raised or
returned. -/
def fireRequest (st : ClientState) (route method : String)
    (data form_in_params : PyVal)
    (transport : SentRequest → HttpResponse) :
    Except PyErr Json × ClientState :=
  match buildRequest st.key route method data form_in_params with
  | .error e => (.error e, st)
  | .ok req =>
    if st.sessionClosed then
      (.error (.runtimeError "Session is closed"),
       { st with sessionClosed := true })
    else
      (handleResponse req.method route (transport req),
       { st with sessionClosed := true })

/-- `_post_handler` (lines 74-75): `_fire_request(endpoint, "POST", data,
False)`. -/
def post_handler (st : ClientState) (endpoint : String) (data : PyVal)
    (transport : SentRequest → HttpResponse) :
    Except PyErr Json × ClientState :=
  fireRequest st endpoint "POST" data (.bool false) transport

/-- `_put_handler` (lines 77-78): `_fire_request(endpoint, "PUT", data,
False)`. -/
def put_handler (st : ClientState) (endpoint : String) (data : PyVal)
    (transport : SentRequest → HttpResponse) :
    Except PyErr Json × ClientState :=
  fireRequest st endpoint "PUT" data (.bool false) transport

/-- `_get_handler` (lines 80-81): `_fire_request(endpoint, "GET", data,
True)`. -/
def get_handler (st : ClientState) (endpoint : String) (data : PyVal)
    (transport : SentRequest → HttpResponse) :
    Except PyErr Json × ClientState :=
  fireRequest st endpoint "GET" data (.bool true) transport

/-- `login` (lines 1366-1378): posts `locals()` — the `self` object and the
two credential parameters — to `/user/login` and returns `resp["jwt"]`,
the one adapter in the file that unwraps a field from the successful
response. -/
def login (st : ClientState) (username_or_email password : String)
    (transport : SentRequest → HttpResponse) :
    Except PyErr Json × ClientState :=
  let r := post_handler st "/user/login"
    (.dict [("self", .obj "LemmyHttp"),
            ("username_or_email", .str username_or_email),
            ("password", .str password)]) transport
  match r.1 with
  | .ok j =>
    match j.get? "jwt" with
    | some v => (.ok v, r.2)
    | Option.none => (.error (.keyError "jwt"), r.2)
  | .error e => (.error e, r.2)

/-- `add_admin` (lines 83-94): a representative ordinary adapter — posts
`locals()` to a fixed route and returns the dispatcher's result unchanged,
unwrapping nothing. -/
def add_admin (st : ClientState) (added : Bool) (person_id : Int)
    (transport : SentRequest → HttpResponse) :
    Except PyErr Json × ClientState :=
  post_handler st "/admin/add"
    (.dict [("self", .obj "LemmyHttp"), ("added", .bool added),
            ("person_id", .int person_id)]) transport

/-- The serialized form a request carries, wherever it was placed. -/
def outgoingForm (req : SentRequest) : Option (List (String × PyVal)) :=
  match req.params with
  | some f => some f
  | Option.none => req.jsonBody

/-- `needle` occurs as a contiguous substring of `hay`. -/
def strContains (hay needle : String) : Prop :=
  ∃ pre post, hay = pre ++ needle ++ post

/-- The form `_fire_request` serializes for dict data (lines 49-55): the
entries surviving the `v is not None and k != "self"` filter, with the auth
key injected afterwards when one is configured. -/
def authForm (key : Option String) (entries : List (String × PyVal)) :
    List (String × PyVal) :=
  let filtered := entries.filter fun kv => !kv.2.isNone && !(kv.1 == "self")
  match key with
  | some tok => dictSet filtered "auth" (.str tok)
  | Option.none => filtered


/-! ## Theorems -/


/-! ## Round-trip of the identifier codec -/

/-- Decoding inverts the encoding table on every 6-bit value. -/
theorem b64val_b64char : ∀ v : Nat, v < 64 → b64val (b64char v) = some v := by
  decide

/-- No alphabet character is the pad character. -/
theorem b64char_ne_pad : ∀ v : Nat, v < 64 → ¬ b64char v = '=' := by
  decide

/-- The only alphabet character that `rstrip(b'=A')` strips is `A`. -/
theorem b64char_strip : ∀ v : Nat, v < 64 →
    isStripChar (b64char v) = true → b64char v = 'A' := by
  decide

/-- Alphabet characters are ASCII. -/
theorem b64char_ascii : ∀ v : Nat, v < 64 → (b64char v).toNat < 128 := by
  decide

theorem length_dropWhile_le (p : Char → Bool) (l : List Char) :
    (l.dropWhile p).length ≤ l.length := by
  induction l with
  | nil => simp
  | cons a t ih =>
    rw [List.dropWhile_cons]
    split
    · simp only [List.length_cons]; omega
    · simp

/-- Stripping trailing `A`s (working on the reversed list) and then padding
back with `A` to the original length restores the list, provided every
strippable character in it is `A`. -/
theorem strip_pad (cr : List Char)
    (h : ∀ c ∈ cr, isStripChar c = true → c = 'A') :
    (cr.dropWhile isStripChar).reverse ++
      List.replicate (cr.length - (cr.dropWhile isStripChar).length) 'A' =
      cr.reverse := by
  induction cr with
  | nil => simp
  | cons c t ih =>
    rw [List.dropWhile_cons]
    by_cases hc : isStripChar c
    · have hA : c = 'A' := h c (List.mem_cons_self c t) hc
      have ht := ih (fun x hx hsx => h x (List.mem_cons_of_mem c hx) hsx)
      have hlen := length_dropWhile_le isStripChar t
      rw [if_pos hc, List.length_cons]
      have hsub : t.length + 1 - (t.dropWhile isStripChar).length =
          (t.length - (t.dropWhile isStripChar).length) + 1 := by omega
      rw [hsub, List.replicate_succ', ← List.append_assoc, ht,
        List.reverse_cons, hA]
    · rw [if_neg hc]
      simp

/-- One decoder step on an alphabet character at quad position 0. -/
theorem a2bLoop_step0 (v : Nat) (hv : v < 64) (rest : List Char)
    (l p : Nat) (out : List Nat) :
    a2bLoop (b64char v :: rest) 0 l p out = a2bLoop rest 1 v 0 out := by
  have h1 : (b64char v = '=') = False := eq_false (b64char_ne_pad v hv)
  simp only [a2bLoop, h1, if_false, b64val_b64char v hv]

/-- One decoder step on an alphabet character at quad position 1. -/
theorem a2bLoop_step1 (v : Nat) (hv : v < 64) (rest : List Char)
    (l p : Nat) (out : List Nat) :
    a2bLoop (b64char v :: rest) 1 l p out =
      a2bLoop rest 2 (v % 16) 0 ((l * 4 + v / 16) :: out) := by
  have h1 : (b64char v = '=') = False := eq_false (b64char_ne_pad v hv)
  simp only [a2bLoop, h1, if_false, b64val_b64char v hv]

/-- One decoder step on an alphabet character at quad position 2. -/
theorem a2bLoop_step2 (v : Nat) (hv : v < 64) (rest : List Char)
    (l p : Nat) (out : List Nat) :
    a2bLoop (b64char v :: rest) 2 l p out =
      a2bLoop rest 3 (v % 4) 0 ((l * 16 + v / 4) :: out) := by
  have h1 : (b64char v = '=') = False := eq_false (b64char_ne_pad v hv)
  simp only [a2bLoop, h1, if_false, b64val_b64char v hv]

/-- One decoder step on an alphabet character at quad position 3. -/
theorem a2bLoop_step3 (v : Nat) (hv : v < 64) (rest : List Char)
    (l p : Nat) (out : List Nat) :
    a2bLoop (b64char v :: rest) 3 l p out =
      a2bLoop rest 0 0 0 ((l * 64 + v) :: out) := by
  have h1 : (b64char v = '=') = False := eq_false (b64char_ne_pad v hv)
  simp only [a2bLoop, h1, if_false, b64val_b64char v hv]

/-- A terminating pad sequence at quad position 2 returns the
accumulated bytes. -/
theorem a2bLoop_pad_tail (l : Nat) (out : List Nat) :
    a2bLoop ['=', '='] 2 l 0 out = some out.reverse := by
  simp [a2bLoop]

/-- Running the decoder loop on six alphabet characters followed by the
`==` pad yields the four bytes they encode. -/
theorem a2bLoop_six (v0 v1 v2 v3 v4 v5 : Nat)
    (h0 : v0 < 64) (h1 : v1 < 64) (h2 : v2 < 64) (h3 : v3 < 64)
    (h4 : v4 < 64) (h5 : v5 < 64) :
    a2bLoop [b64char v0, b64char v1, b64char v2, b64char v3, b64char v4,
             b64char v5, '=', '='] 0 0 0 [] =
    some [v0 * 4 + v1 / 16, v1 % 16 * 16 + v2 / 4, v2 % 4 * 64 + v3,
          v4 * 4 + v5 / 16] := by
  rw [a2bLoop_step0 v0 h0, a2bLoop_step1 v1 h1, a2bLoop_step2 v2 h2,
    a2bLoop_step3 v3 h3, a2bLoop_step0 v4 h4, a2bLoop_step1 v5 h5,
    a2bLoop_pad_tail]
  rfl

/-- Encoding four bytes, stripping `=`/`A`, and decoding again restores the
little-endian value of the bytes. -/
theorem roundtrip_bytes (b0 b1 b2 b3 : Nat)
    (H0 : b0 < 256) (H1 : b1 < 256) (H2 : b2 < 256) (H3 : b3 < 256) :
    b64_to_id ⟨rstripEqA (b64encode [b0, b1, b2, b3])⟩ =
      some (b0 + 256 * b1 + 65536 * b2 + 16777216 * b3) := by
  have hv0 : b0 / 4 < 64 := by omega
  have hv1 : b0 % 4 * 16 + b1 / 16 < 64 := by omega
  have hv2 : b1 % 16 * 4 + b2 / 64 < 64 := by omega
  have hv3 : b2 % 64 < 64 := by omega
  have hv4 : b3 / 4 < 64 := by omega
  have hv5 : b3 % 4 * 16 < 64 := by omega
  have henc : b64encode [b0, b1, b2, b3] =
      [b64char (b0 / 4), b64char (b0 % 4 * 16 + b1 / 16),
       b64char (b1 % 16 * 4 + b2 / 64), b64char (b2 % 64),
       b64char (b3 / 4), b64char (b3 % 4 * 16), '=', '='] := rfl
  have hstripA : ∀ c ∈ [b64char (b3 % 4 * 16), b64char (b3 / 4),
      b64char (b2 % 64), b64char (b1 % 16 * 4 + b2 / 64),
      b64char (b0 % 4 * 16 + b1 / 16), b64char (b0 / 4)],
      isStripChar c = true → c = 'A' := by
    intro c hc
    simp only [List.mem_cons, List.not_mem_nil, or_false] at hc
    rcases hc with rfl | rfl | rfl | rfl | rfl | rfl
    · exact b64char_strip _ hv5
    · exact b64char_strip _ hv4
    · exact b64char_strip _ hv3
    · exact b64char_strip _ hv2
    · exact b64char_strip _ hv1
    · exact b64char_strip _ hv0
  have hpad : ljustA (rstripEqA (b64encode [b0, b1, b2, b3])) 6 =
      [b64char (b0 / 4), b64char (b0 % 4 * 16 + b1 / 16),
       b64char (b1 % 16 * 4 + b2 / 64), b64char (b2 % 64),
       b64char (b3 / 4), b64char (b3 % 4 * 16)] := by
    rw [henc]
    show ljustA (rstripEqA _) 6 = _
    rw [rstripEqA]
    have hrev : ([b64char (b0 / 4), b64char (b0 % 4 * 16 + b1 / 16),
        b64char (b1 % 16 * 4 + b2 / 64), b64char (b2 % 64),
        b64char (b3 / 4), b64char (b3 % 4 * 16), '=', '='] :
          List Char).reverse =
        '=' :: '=' :: [b64char (b3 % 4 * 16), b64char (b3 / 4),
        b64char (b2 % 64), b64char (b1 % 16 * 4 + b2 / 64),
        b64char (b0 % 4 * 16 + b1 / 16), b64char (b0 / 4)] := by
      simp
    rw [hrev, List.dropWhile_cons, if_pos (by decide),
      List.dropWhile_cons, if_pos (by decide)]
    rw [ljustA, List.length_reverse]
    have := strip_pad [b64char (b3 % 4 * 16), b64char (b3 / 4),
      b64char (b2 % 64), b64char (b1 % 16 * 4 + b2 / 64),
      b64char (b0 % 4 * 16 + b1 / 16), b64char (b0 / 4)] hstripA
    simpa using this
  have hascii : (([b64char (b0 / 4), b64char (b0 % 4 * 16 + b1 / 16),
      b64char (b1 % 16 * 4 + b2 / 64), b64char (b2 % 64),
      b64char (b3 / 4), b64char (b3 % 4 * 16), '=', '='] :
        List Char).all fun c => c.toNat < 128) = true := by
    simp only [List.all_cons, List.all_nil, Bool.and_eq_true,
      decide_eq_true_eq]
    refine ⟨b64char_ascii _ hv0, b64char_ascii _ hv1, b64char_ascii _ hv2,
      b64char_ascii _ hv3, b64char_ascii _ hv4, b64char_ascii _ hv5,
      by decide, by decide, trivial⟩
  rw [b64_to_id]
  show (urlsafe_b64decode
    (ljustA (rstripEqA (b64encode [b0, b1, b2, b3])) 6 ++ ['=', '='])).map
      fromBytesLE = _
  rw [hpad]
  show (urlsafe_b64decode [b64char (b0 / 4), b64char (b0 % 4 * 16 + b1 / 16),
      b64char (b1 % 16 * 4 + b2 / 64), b64char (b2 % 64),
      b64char (b3 / 4), b64char (b3 % 4 * 16), '=', '=']).map
      fromBytesLE = _
  rw [urlsafe_b64decode, if_pos hascii,
    a2bLoop_six _ _ _ _ _ _ hv0 hv1 hv2 hv3 hv4 hv5]
  show some (fromBytesLE _) = _
  rw [fromBytesLE, fromBytesLE, fromBytesLE, fromBytesLE, fromBytesLE]
  congr 1
  omega

example : id_b64_ 0 = some "" := by decide
example : b64_to_id "" = some 0 := by decide
example : id_b64_ 1 = some "AQ" := by decide
example : b64_to_id "AQ" = some 1 := by decide
example : id_b64_ (2 ^ 32 - 1) = some "_____w" := by decide
example : b64_to_id "_____w" = some (2 ^ 32 - 1) := by decide
example : b64_to_id "!!!!!!" = some 0 := by decide

/-- C1: for every unsigned 32-bit integer `x`, decoding the encoding of `x`
returns `x`: `b64_to_id (id_b64_ x) = x`, where `id_b64_` takes the 4-byte
little-endian representation of `x`, base64url-encodes it and strips
trailing `=` and `A` characters, and `b64_to_id` right-pads its input with
`A` to length 6, appends `==`, base64url-decodes, and reads the bytes as a
little-endian unsigned integer. -/
theorem C1_decode_encode_roundtrip (x : Nat) (h : x < 2 ^ 32) :
    (id_b64_ x).bind b64_to_id = some x := by
  rw [id_b64_, if_pos h]
  show b64_to_id ⟨rstripEqA (b64encode (toBytesLE4 x))⟩ = some x
  have hb : toBytesLE4 x =
      [x % 256, x / 256 % 256, x / 65536 % 256, x / 16777216 % 256] := rfl
  rw [hb, roundtrip_bytes _ _ _ _ (by omega) (by omega) (by omega) (by omega)]
  congr 1
  omega

/-- Witness for C1 at `x = 123456789`. -/
theorem C1_decode_encode_roundtrip_witness :
    123456789 < 2 ^ 32 ∧
      (id_b64_ 123456789).bind b64_to_id = some 123456789 :=
  ⟨by decide, C1_decode_encode_roundtrip 123456789 (by decide)⟩

/-- C6: the encoding of the identifier 0 is the empty string (four zero
bytes encode to `AAAAAA==`, and the trailing `=` and `A` characters are all
stripped), and decoding the empty string yields 0. -/
theorem C6_zero_empty_roundtrip :
    id_b64_ 0 = some "" ∧ b64_to_id "" = some 0 := by
  exact ⟨by decide, by decide⟩

/-- A character with a decoding value is not the pad character. -/
theorem b64val_ne_pad (c : Char) (h : (b64val c).isSome = true) :
    ¬ c = '=' := by
  intro hc
  rw [hc] at h
  simp [b64val] at h

/-- A character with a decoding value is ASCII. -/
theorem b64val_ascii (c : Char) (h : (b64val c).isSome = true) :
    c.toNat < 128 := by
  rw [b64val] at h
  split_ifs at h with h1 h2 h3 h4 h5
  · omega
  · omega
  · omega
  · rcases h4 with rfl | rfl <;> decide
  · rcases h5 with rfl | rfl <;> decide
  · simp at h

/-- Processing a block of decodable characters advances the quad position by
the block's length modulo 4 and then continues with the rest of the
input. -/
theorem a2bLoop_valid_append (data : List Char) :
    ∀ (rest : List Char) (q l : Nat) (out : List Nat), q < 4 →
    (∀ c ∈ data, (b64val c).isSome = true) →
    ∃ q' l' out', q' < 4 ∧ q' = (q + data.length) % 4 ∧
      a2bLoop (data ++ rest) q l 0 out = a2bLoop rest q' l' 0 out' := by
  induction data with
  | nil =>
    intro rest q l out hq _
    exact ⟨q, l, out, hq, by simp only [List.length_nil]; omega, rfl⟩
  | cons c t ih =>
    intro rest q l out hq hall
    have hc : (b64val c).isSome = true := hall c (List.mem_cons_self c t)
    obtain ⟨v, hv⟩ := Option.isSome_iff_exists.mp hc
    have hcne : (c = '=') = False := eq_false (b64val_ne_pad c hc)
    have hallt : ∀ x ∈ t, (b64val x).isSome = true :=
      fun x hx => hall x (List.mem_cons_of_mem c hx)
    rw [List.cons_append]
    interval_cases q
    · have hstep : a2bLoop (c :: (t ++ rest)) 0 l 0 out =
          a2bLoop (t ++ rest) 1 v 0 out := by
        simp only [a2bLoop, hcne, if_false, hv]
      obtain ⟨q', l', out', hq', heq, hrun⟩ :=
        ih rest 1 v out (by omega) hallt
      exact ⟨q', l', out', hq', by simp only [List.length_cons]; omega,
        hstep.trans hrun⟩
    · have hstep : a2bLoop (c :: (t ++ rest)) 1 l 0 out =
          a2bLoop (t ++ rest) 2 (v % 16) 0 ((l * 4 + v / 16) :: out) := by
        simp only [a2bLoop, hcne, if_false, hv]
      obtain ⟨q', l', out', hq', heq, hrun⟩ :=
        ih rest 2 (v % 16) ((l * 4 + v / 16) :: out) (by omega) hallt
      exact ⟨q', l', out', hq', by simp only [List.length_cons]; omega,
        hstep.trans hrun⟩
    · have hstep : a2bLoop (c :: (t ++ rest)) 2 l 0 out =
          a2bLoop (t ++ rest) 3 (v % 4) 0 ((l * 16 + v / 4) :: out) := by
        simp only [a2bLoop, hcne, if_false, hv]
      obtain ⟨q', l', out', hq', heq, hrun⟩ :=
        ih rest 3 (v % 4) ((l * 16 + v / 4) :: out) (by omega) hallt
      exact ⟨q', l', out', hq', by simp only [List.length_cons]; omega,
        hstep.trans hrun⟩
    · have hstep : a2bLoop (c :: (t ++ rest)) 3 l 0 out =
          a2bLoop (t ++ rest) 0 0 0 ((l * 64 + v) :: out) := by
        simp only [a2bLoop, hcne, if_false, hv]
      obtain ⟨q', l', out', hq', heq, hrun⟩ :=
        ih rest 0 0 ((l * 64 + v) :: out) (by omega) hallt
      exact ⟨q', l', out', hq', by simp only [List.length_cons]; omega,
        hstep.trans hrun⟩

/-- The decoder loop accepts an empty remainder at quad position 0. -/
theorem a2bLoop_finish0 (l : Nat) (out : List Nat) :
    a2bLoop [] 0 l 0 out = some out.reverse := by
  simp [a2bLoop]

/-- A single terminating pad at quad position 3 returns the accumulated
bytes. -/
theorem a2bLoop_finish1 (l : Nat) (out : List Nat) :
    a2bLoop ['='] 3 l 0 out = some out.reverse := by
  simp [a2bLoop]

/-- The lenient decoder succeeds on every string that is valid base64url in
the sense of the specification. -/
theorem urlsafe_b64decode_valid (L : List Char)
    (h : specValidB64url L = true) :
    (urlsafe_b64decode L).isSome = true := by
  simp only [specValidB64url, Bool.and_eq_true, decide_eq_true_eq,
    List.all_eq_true] at h
  obtain ⟨⟨⟨hmod, hdata⟩, hpadall'⟩, hpadlen⟩ := h
  have hpadall : ∀ c ∈ L.dropWhile (fun c => !(c == '=')), c = '=' :=
    fun c hc => eq_of_beq (hpadall' c hc)
  have hascii : (L.all fun c => c.toNat < 128) = true := by
    rw [List.all_eq_true]
    intro c hc
    rw [decide_eq_true_eq]
    have hc' : c ∈ L.takeWhile (fun c => !(c == '=')) ++
        L.dropWhile (fun c => !(c == '=')) := by
      rw [List.takeWhile_append_dropWhile]; exact hc
    rcases List.mem_append.mp hc' with hmem | hmem
    · exact b64val_ascii c (hdata c hmem)
    · rw [hpadall c hmem]; decide
  obtain ⟨q', l', out', hq', hqeq, hrun⟩ :=
    a2bLoop_valid_append (L.takeWhile fun c => !(c == '='))
      (L.dropWhile fun c => !(c == '=')) 0 0 [] (by omega) hdata
  have hLrun : a2bLoop L 0 0 0 [] =
      a2bLoop (L.dropWhile fun c => !(c == '=')) q' l' 0 out' := by
    conv_lhs =>
      rw [← List.takeWhile_append_dropWhile (p := fun c => !(c == '='))
        (l := L)]
    exact hrun
  have hlen : L.length = (L.takeWhile fun c => !(c == '=')).length +
      (L.dropWhile fun c => !(c == '=')).length := by
    conv_lhs =>
      rw [← List.takeWhile_append_dropWhile (p := fun c => !(c == '='))
        (l := L)]
    exact List.length_append _ _
  have hcases : L.dropWhile (fun c => !(c == '=')) = [] ∨
      L.dropWhile (fun c => !(c == '=')) = ['='] ∨
      L.dropWhile (fun c => !(c == '=')) = ['=', '='] := by
    rcases hdw : L.dropWhile (fun c => !(c == '=')) with _ | ⟨c1, t1⟩
    · exact Or.inl rfl
    · have h1 : c1 = '=' := by
        refine hpadall c1 ?_
        rw [hdw]
        exact List.mem_cons_self c1 t1
      rcases ht1 : t1 with _ | ⟨c2, t2⟩
      · refine Or.inr (Or.inl ?_)
        rw [h1]
      · refine Or.inr (Or.inr ?_)
        have h2 : c2 = '=' := by
          refine hpadall c2 ?_
          rw [hdw, ht1]
          exact List.mem_cons_of_mem c1 (List.mem_cons_self c2 t2)
        have h3 : t2 = [] := by
          have hl2 := hpadlen
          rw [hdw, ht1] at hl2
          simp only [List.length_cons] at hl2
          have hl0 : t2.length = 0 := by omega
          exact List.length_eq_zero.mp hl0
        rw [h1, h2, h3]
  rw [urlsafe_b64decode, if_pos hascii, hLrun]
  rcases hcases with hdw | hdw | hdw
  · have hq0 : q' = 0 := by
      rw [hdw] at hlen
      simp only [List.length_nil] at hlen
      omega
    rw [hdw, hq0, a2bLoop_finish0]
    rfl
  · have hq3 : q' = 3 := by
      rw [hdw] at hlen
      simp only [List.length_cons, List.length_nil] at hlen
      omega
    rw [hdw, hq3, a2bLoop_finish1]
    rfl
  · have hq2 : q' = 2 := by
      rw [hdw] at hlen
      simp only [List.length_cons, List.length_nil] at hlen
      omega
    rw [hdw, hq2, a2bLoop_pad_tail]
    rfl

/-- C5 counterexample: the padded form of `"!!!!!!"` is not valid base64url
(its characters are outside the alphabet), yet `b64_to_id "!!!!!!"` does not
fail — the lenient decoder discards the invalid characters and returns 0.
This refutes the claimed "fails if and only if not valid base64url". -/
theorem C5_counterexample :
    specValidB64url (paddedForm "!!!!!!") = false ∧
      b64_to_id "!!!!!!" = some 0 := by
  exact ⟨by decide, by decide⟩

/-- C5 (amended): on any string whose padded form
(`code.ljust(6, 'A') + '=='`) is valid base64url, decoding succeeds; but
failure is not equivalent to invalidity — the decoder used by the source
discards characters outside the alphabet, so some invalid inputs decode
successfully as well. -/
theorem C5_valid_padded_decodes (s : String)
    (h : specValidB64url (paddedForm s) = true) :
    (b64_to_id s).isSome = true := by
  have hb : b64_to_id s = (urlsafe_b64decode (paddedForm s)).map
      fromBytesLE := rfl
  obtain ⟨bs, hbs⟩ :=
    Option.isSome_iff_exists.mp (urlsafe_b64decode_valid _ h)
  rw [hb, hbs]
  rfl

/-- Witness for the amended C5 at `s = "AQ"` (padded form `"AQAAAA=="`). -/
theorem C5_valid_padded_decodes_witness :
    specValidB64url (paddedForm "AQ") = true ∧
      (b64_to_id "AQ").isSome = true :=
  ⟨by decide, C5_valid_padded_decodes "AQ" (by decide)⟩



/-! ## Dispatcher lemmas -/

theorem dictGet_cons (a : String × PyVal) (l : List (String × PyVal))
    (k : String) :
    dictGet (a :: l) k = if a.1 == k then some a.2 else dictGet l k := by
  rcases h : (a.1 == k) with _ | _
  · simp [dictGet, List.find?_cons_of_neg, h]
  · simp [dictGet, List.find?_cons_of_pos, h]

theorem dictGet_map_set (t : List (String × PyVal)) (k : String) (v : PyVal) :
    dictGet (t.map fun kv => if kv.1 == k then (k, v) else kv) k =
      if t.any (fun kv => kv.1 == k) then some v else Option.none := by
  induction t with
  | nil => rfl
  | cons kv t ih =>
    rcases hk : (kv.1 == k) with _ | _
    · simp only [List.map_cons, hk, Bool.false_eq_true, if_false,
        dictGet_cons, List.any_cons, Bool.false_or, ih]
    · simp only [List.map_cons, hk, if_true, dictGet_cons, List.any_cons,
        Bool.true_or, beq_self_eq_true, if_pos]

theorem dictGet_append_right (t : List (String × PyVal)) (k : String)
    (v : PyVal) (h : t.any (fun kv => kv.1 == k) = false) :
    dictGet (t ++ [(k, v)]) k = some v := by
  induction t with
  | nil => simp [dictGet_cons]
  | cons kv t ih =>
    rw [List.any_cons, Bool.or_eq_false_iff] at h
    rw [List.cons_append, dictGet_cons, h.1]
    exact ih h.2

/-- Dict assignment makes the assigned value retrievable under its key,
whether or not the key was already present. -/
theorem dictGet_dictSet (d : List (String × PyVal)) (k : String) (v : PyVal) :
    dictGet (dictSet d k v) k = some v := by
  rw [dictSet]
  rcases h : d.any (fun kv => kv.1 == k) with _ | _
  · rw [if_neg (by simp [h])]
    exact dictGet_append_right d k v h
  · rw [if_pos (by simp [h]), dictGet_map_set, if_pos (by simp [h])]

/-- On dict data, `_fire_request` reduces to a choice between the two
serializations of the filtered, auth-injected form. -/
theorem buildRequest_dict (key : Option String) (route method : String)
    (entries : List (String × PyVal)) (fip : PyVal) :
    buildRequest key route method (.dict entries) fip =
      if (if fip.isNone then PyVal.bool (pyLower method == "get")
          else fip).truthy then
        .ok ⟨pyLower method, "/api/" ++ API_VERSION ++ route,
             some (authForm key entries), Option.none⟩
      else
        .ok ⟨pyLower method, "/api/" ++ API_VERSION ++ route,
             Option.none, some (authForm key entries)⟩ := rfl

/-- Whatever the serialization, the outgoing form on dict data is the
filtered form with the auth key injected. -/
theorem buildRequest_dict_form (key : Option String) (route method : String)
    (entries : List (String × PyVal)) (fip : PyVal) (req : SentRequest)
    (h : buildRequest key route method (.dict entries) fip = .ok req) :
    outgoingForm req = some (authForm key entries) := by
  rw [buildRequest_dict] at h
  by_cases ht : (if fip.isNone then PyVal.bool (pyLower method == "get")
      else fip).truthy = true
  · rw [if_pos ht] at h
    rw [← Except.ok.inj h]
    rfl
  · rw [if_neg ht] at h
    rw [← Except.ok.inj h]
    rfl

/-- A successfully built request carries the lowercased method. -/
theorem buildRequest_method (key : Option String) (route method : String)
    (data fip : PyVal) (req : SentRequest)
    (h : buildRequest key route method data fip = .ok req) :
    req.method = pyLower method := by
  simp only [buildRequest] at h
  split at h
  · exact absurd h (by simp)
  · by_cases ht : (if fip.isNone then PyVal.bool (pyLower method == "get")
        else fip).truthy = true
    · rw [if_pos ht] at h
      rw [← Except.ok.inj h]
    · rw [if_neg ht] at h
      rw [← Except.ok.inj h]

/-- Reduction of a dispatch whose request builds successfully against an
open session. -/
theorem fireRequest_ok (st : ClientState) (route method : String)
    (data fip : PyVal) (transport : SentRequest → HttpResponse)
    (req : SentRequest) (hopen : st.sessionClosed = false)
    (hreq : buildRequest st.key route method data fip = .ok req) :
    fireRequest st route method data fip transport =
      (handleResponse req.method route (transport req),
       { st with sessionClosed := true }) := by
  rw [fireRequest, hreq, hopen]
  rfl

/-- A 200 response is parsed and returned as-is. -/
theorem handleResponse_200 (methodL route ct : String) (j : Json) :
    handleResponse methodL route ⟨200, ct, some j⟩ = .ok j := rfl

/-- A non-200 JSON response with a string `error` field raises the
structured `LemmyError`. -/
theorem handleResponse_json_error (methodL route : String) (status : Nat)
    (body : Json) (e : String) (hstatus : ¬ status = 200)
    (herr : body.get? "error" = some (.str e)) :
    handleResponse methodL route ⟨status, "application/json", some body⟩ =
      .error (.lemmyError ("[" ++ toString status ++
        "] Lemmy API returned " ++ pyUpper e ++ " exception")
        (some (pyUpper e))) := by
  have hs : (status == 200) = false := by
    simp only [beq_eq_false_iff_ne, ne_eq]
    exact hstatus
  simp only [handleResponse, hs, Bool.not_false, if_true, herr,
    beq_self_eq_true]

/-- A non-200 response without a JSON content type raises the generic
`LemmyError` with no error code. -/
theorem handleResponse_generic (methodL route : String) (status : Nat)
    (ct : String) (body : Option Json) (hstatus : ¬ status = 200)
    (hct : ¬ ct = "application/json") :
    handleResponse methodL route ⟨status, ct, body⟩ =
      .error (.lemmyError ("[" ++ toString status ++
        "] Generic error encountered while trying to " ++ methodL ++ " " ++
        route) Option.none) := by
  have hs : (status == 200) = false := by
    simp only [beq_eq_false_iff_ne, ne_eq]
    exact hstatus
  have hc : (ct == "application/json") = false := by
    simp only [beq_eq_false_iff_ne, ne_eq]
    exact hct
  simp only [handleResponse, hs, hc, Bool.not_false, if_true,
    Bool.false_eq_true, if_false]


/-! ## Claims about the dispatcher -/

/-- C3: every `None`-valued entry and the `"self"` entry of the parameter
mapping are dropped before serialization, and afterwards a configured auth
token is injected under `"auth"`; the mapping `{a: 1, b: None, self: x}`
serializes to `{a: 1}` plus the auth entry exactly when a token is
configured; and a caller-supplied `None`-valued `"auth"` entry cannot
suppress the injection (the unconditional second conjunct covers any
`entries`, including those containing `("auth", None)`). -/
theorem C3_param_filtering :
    (∀ (key : Option String) (route method : String)
        (entries : List (String × PyVal)) (fip : PyVal) (req : SentRequest),
        buildRequest key route method (.dict entries) fip = .ok req →
        outgoingForm req = some (authForm key entries)) ∧
    (∀ (tok route method : String) (entries : List (String × PyVal))
        (fip : PyVal) (req : SentRequest),
        buildRequest (some tok) route method (.dict entries) fip = .ok req →
        ∃ form, outgoingForm req = some form ∧
          dictGet form "auth" = some (.str tok)) ∧
    (∀ (tok route method : String) (x : PyVal) (fip : PyVal)
        (req : SentRequest),
        buildRequest (some tok) route method
          (.dict [("a", .int 1), ("b", PyVal.none), ("self", x)]) fip =
          .ok req →
        outgoingForm req = some [("a", .int 1), ("auth", .str tok)]) ∧
    (∀ (route method : String) (x : PyVal) (fip : PyVal) (req : SentRequest),
        buildRequest Option.none route method
          (.dict [("a", .int 1), ("b", PyVal.none), ("self", x)]) fip =
          .ok req →
        outgoingForm req = some [("a", .int 1)]) := by
  have hand : ∀ b : Bool, (b && !(("self" : String) == "self")) = false := by
    intro b
    cases b <;> decide
  have hfil : ∀ x : PyVal,
      List.filter (fun kv => !kv.2.isNone && !(kv.1 == "self"))
        [("a", PyVal.int 1), ("b", PyVal.none), ("self", x)] =
        [("a", PyVal.int 1)] := by
    intro x
    have ha : (("a" : String) == "self") = false := by decide
    have hb : (("b" : String) == "self") = false := by decide
    rw [List.filter_cons, List.filter_cons, List.filter_cons, hand]
    simp [PyVal.isNone, ha, hb]
  refine ⟨fun key route method entries fip req h =>
      buildRequest_dict_form key route method entries fip req h,
    fun tok route method entries fip req h =>
      ⟨authForm (some tok) entries,
       buildRequest_dict_form (some tok) route method entries fip req h,
       dictGet_dictSet _ "auth" (.str tok)⟩,
    ?_, ?_⟩
  · intro tok route method x fip req h
    rw [buildRequest_dict_form (some tok) route method _ fip req h]
    show some (dictSet (List.filter _ _) "auth" (PyVal.str tok)) = _
    rw [hfil]
    rfl
  · intro route method x fip req h
    rw [buildRequest_dict_form Option.none route method _ fip req h]
    show some (List.filter _ _) = _
    rw [hfil]

/-- Witness for C3: the concrete mapping `{a: 1, b: None, self: x}` with a
configured token serializes to `{a: 1, auth: tok}`. -/
theorem C3_param_filtering_witness :
    outgoingForm ⟨"get", "/api/v3/r",
      some [("a", PyVal.int 1), ("auth", PyVal.str "tok")], Option.none⟩ =
      some [("a", PyVal.int 1), ("auth", PyVal.str "tok")] :=
  C3_param_filtering.2.2.1 "tok" "/r" "GET" (PyVal.obj "LemmyHttp")
    PyVal.none
    ⟨"get", "/api/v3/r", some [("a", PyVal.int 1), ("auth", PyVal.str "tok")],
     Option.none⟩ rfl

/-- C4: with `form_in_params` explicitly `None`, the parameter mapping is
serialized as HTTP query parameters exactly when the (lowercased) method is
`"get"`, and as a JSON request body otherwise (in particular for POST and
PUT). -/
theorem C4_fip_none_get_params_else_body (key : Option String)
    (route method : String) (entries : List (String × PyVal)) :
    ∃ req, buildRequest key route method (.dict entries) PyVal.none =
        .ok req ∧
      req.params.isSome = (pyLower method == "get") ∧
      req.jsonBody.isSome = !(pyLower method == "get") := by
  rw [buildRequest_dict]
  rcases hm : (pyLower method == "get") with _ | _
  · refine ⟨⟨pyLower method, "/api/" ++ API_VERSION ++ route, Option.none,
      some (authForm key entries)⟩, ?_, rfl, rfl⟩
    rw [if_neg (by decide)]
  · refine ⟨⟨pyLower method, "/api/" ++ API_VERSION ++ route,
      some (authForm key entries), Option.none⟩, ?_, rfl, rfl⟩
    rw [if_pos (by decide)]

/-- C2 (amended): a non-200 JSON response with a string `error` field makes
the dispatcher raise a `LemmyError` whose message contains the HTTP status
code and the UPPERCASED remote error code, and whose separate `error`
field equals the UPPERCASED remote error code — not the code as sent on
the wire. -/
theorem C2_error_code_uppercased (st : ClientState) (route method : String)
    (data fip : PyVal) (transport : SentRequest → HttpResponse)
    (req : SentRequest) (status : Nat) (body : Json) (e : String)
    (hopen : st.sessionClosed = false)
    (hreq : buildRequest st.key route method data fip = .ok req)
    (hresp : transport req = ⟨status, "application/json", some body⟩)
    (hstatus : ¬ status = 200)
    (herr : body.get? "error" = some (.str e)) :
    ∃ msg, (fireRequest st route method data fip transport).1 =
        .error (.lemmyError msg (some (pyUpper e))) ∧
      strContains msg (toString status) ∧ strContains msg (pyUpper e) := by
  rw [fireRequest_ok st route method data fip transport req hopen hreq, hresp,
    handleResponse_json_error req.method route status body e hstatus herr]
  refine ⟨"[" ++ toString status ++ "] Lemmy API returned " ++ pyUpper e ++
    " exception", rfl, ?_, ?_⟩
  · exact ⟨"[", "] Lemmy API returned " ++ pyUpper e ++ " exception",
      by simp [String.append_assoc]⟩
  · exact ⟨"[" ++ toString status ++ "] Lemmy API returned ", " exception",
      by simp [String.append_assoc]⟩

/-- Witness for the amended C2: a mocked 404 with body
`{"error": "not_found"}`. -/
theorem C2_error_code_uppercased_witness :
    ∃ msg, (fireRequest ⟨Option.none, false⟩ "/x" "GET" (.dict [])
        PyVal.none (fun _ => ⟨404, "application/json",
          some (.obj [("error", .str "not_found")])⟩)).1 =
        .error (.lemmyError msg (some (pyUpper "not_found"))) ∧
      strContains msg (toString 404) ∧ strContains msg (pyUpper "not_found") :=
  C2_error_code_uppercased ⟨Option.none, false⟩ "/x" "GET" (.dict [])
    PyVal.none
    (fun _ => ⟨404, "application/json",
      some (.obj [("error", .str "not_found")])⟩)
    ⟨"get", "/api/v3/x", some [], Option.none⟩ 404
    (.obj [("error", .str "not_found")]) "not_found" rfl rfl rfl
    (by decide) rfl

/-- C2 as stated is false: on a 404 whose JSON body is
`{"error": "not_found"}`, the raised error's separate code field is
`"NOT_FOUND"` — the uppercased code — and not the remote error code as
sent on the wire (`"not_found"`). -/
theorem C2_counterexample :
    (fireRequest ⟨Option.none, false⟩ "/x" "GET" (.dict []) PyVal.none
      (fun _ => ⟨404, "application/json",
        some (.obj [("error", .str "not_found")])⟩)).1 =
      .error (.lemmyError "[404] Lemmy API returned NOT_FOUND exception"
        (some "NOT_FOUND")) ∧
    ("NOT_FOUND" : String) ≠ "not_found" :=
  ⟨rfl, by decide⟩

/-- C8: a non-200 response without a JSON content type makes the dispatcher
raise a generic `LemmyError` whose message contains the HTTP status code,
the (lowercased) HTTP method, and the route path, and whose error-code
field is `None`. -/
theorem C8_generic_error (st : ClientState) (route method : String)
    (data fip : PyVal) (transport : SentRequest → HttpResponse)
    (req : SentRequest) (status : Nat) (ct : String) (body : Option Json)
    (hopen : st.sessionClosed = false)
    (hreq : buildRequest st.key route method data fip = .ok req)
    (hresp : transport req = ⟨status, ct, body⟩)
    (hstatus : ¬ status = 200)
    (hct : ¬ ct = "application/json") :
    ∃ msg, (fireRequest st route method data fip transport).1 =
        .error (.lemmyError msg Option.none) ∧
      strContains msg (toString status) ∧
      strContains msg (pyLower method) ∧ strContains msg route := by
  rw [fireRequest_ok st route method data fip transport req hopen hreq, hresp,
    handleResponse_generic req.method route status ct body hstatus hct,
    buildRequest_method st.key route method data fip req hreq]
  refine ⟨"[" ++ toString status ++
    "] Generic error encountered while trying to " ++ pyLower method ++
    " " ++ route, rfl, ?_, ?_, ?_⟩
  · exact ⟨"[", "] Generic error encountered while trying to " ++
      pyLower method ++ " " ++ route, by simp [String.append_assoc]⟩
  · exact ⟨"[" ++ toString status ++
      "] Generic error encountered while trying to ", " " ++ route,
      by simp [String.append_assoc]⟩
  · exact ⟨"[" ++ toString status ++
      "] Generic error encountered while trying to " ++ pyLower method ++
      " ", "", by simp [String.append_assoc]⟩

/-- Witness for C8: a mocked 500 with a non-JSON body. -/
theorem C8_generic_error_witness :
    ∃ msg, (fireRequest ⟨Option.none, false⟩ "/x" "GET" (.dict [])
        PyVal.none (fun _ => ⟨500, "text/html", Option.none⟩)).1 =
        .error (.lemmyError msg Option.none) ∧
      strContains msg (toString 500) ∧
      strContains msg (pyLower "GET") ∧ strContains msg "/x" :=
  C8_generic_error ⟨Option.none, false⟩ "/x" "GET" (.dict []) PyVal.none
    (fun _ => ⟨500, "text/html", Option.none⟩)
    ⟨"get", "/api/v3/x", some [], Option.none⟩ 500 "text/html" Option.none
    rfl rfl rfl (by decide) (by decide)


/-- C7: a 200 response whose JSON body has a `jwt` field makes the `login`
adapter return the bare value of that field rather than the wrapping
object, while an ordinary adapter (`add_admin`) returns the decoded
response object unchanged. -/
theorem C7_login_unwraps_jwt (st : ClientState) (u p : String)
    (transport : SentRequest → HttpResponse) (body v : Json)
    (hopen : st.sessionClosed = false)
    (htr : ∀ q, transport q = ⟨200, "application/json", some body⟩)
    (hjwt : body.get? "jwt" = some v) :
    (login st u p transport).1 = .ok v ∧
    (add_admin st true 1 transport).1 = .ok body := by
  have hpost : ∀ (route : String) (entries : List (String × PyVal)),
      (post_handler st route (.dict entries) transport).1 = .ok body := by
    intro route entries
    rw [post_handler,
      fireRequest_ok st route "POST" (.dict entries) (.bool false) transport
        ⟨"post", "/api/" ++ API_VERSION ++ route, Option.none,
         some (authForm st.key entries)⟩ hopen rfl,
      htr]
    rfl
  constructor
  · rw [login, hpost]
    simp only [hjwt]
  · rw [add_admin]
    rw [hpost]

/-- Witness for C7 at the mocked body `{"jwt": "abc123"}`. -/
theorem C7_login_unwraps_jwt_witness :
    (login ⟨Option.none, false⟩ "user" "pass"
      (fun _ => ⟨200, "application/json",
        some (.obj [("jwt", .str "abc123")])⟩)).1 = .ok (.str "abc123") ∧
    (add_admin ⟨Option.none, false⟩ true 1
      (fun _ => ⟨200, "application/json",
        some (.obj [("jwt", .str "abc123")])⟩)).1 =
      .ok (.obj [("jwt", .str "abc123")]) :=
  C7_login_unwraps_jwt ⟨Option.none, false⟩ "user" "pass"
    (fun _ => ⟨200, "application/json",
      some (.obj [("jwt", .str "abc123")])⟩)
    (.obj [("jwt", .str "abc123")]) (.str "abc123") rfl (fun _ => rfl) rfl

/-- C9 is violated by the code: the auth key is indeed only ever read, but
the dispatcher's `async with self.client` closes the caller's session at
the end of every dispatch, so the session is not reusable — an identical
second dispatch raises `RuntimeError("Session is closed")`. -/
theorem C9_session_closed_after_dispatch :
    (∀ (st : ClientState) (route method : String) (data fip : PyVal)
        (transport : SentRequest → HttpResponse),
        (fireRequest st route method data fip transport).2.key = st.key) ∧
    ((fireRequest ⟨some "token", false⟩ "/site" "GET" (.dict [])
        (.bool true) (fun _ => ⟨200, "application/json",
          some (.obj [])⟩)).1 = .ok (.obj []) ∧
     (fireRequest ⟨some "token", false⟩ "/site" "GET" (.dict [])
        (.bool true) (fun _ => ⟨200, "application/json",
          some (.obj [])⟩)).2.sessionClosed = true ∧
     (fireRequest
        (fireRequest ⟨some "token", false⟩ "/site" "GET" (.dict [])
          (.bool true) (fun _ => ⟨200, "application/json",
            some (.obj [])⟩)).2
        "/site" "GET" (.dict []) (.bool true)
        (fun _ => ⟨200, "application/json", some (.obj [])⟩)).1 =
       .error (.runtimeError "Session is closed")) := by
  refine ⟨?_, rfl, rfl, rfl⟩
  intro st route method data fip transport
  rw [fireRequest]
  split
  · rfl
  · split
    · rfl
    · rfl

/-- C10: `_fire_request`'s declared default argument values are the
`typing` objects `Optional[dict]` and `Optional[bool]`, not `None`; both
are non-`None` and the latter is truthy, so with the default
`form_in_params` the parameters go into the query string for every HTTP
method (the GET-based defaulting branch is unreachable), and with the
default `data` the call fails with `AttributeError` when iterating it as a
mapping; the three internal handlers pass both arguments explicitly. -/
theorem C10_typing_object_defaults :
    (dataDefault.isNone = false ∧ formInParamsDefault.isNone = false ∧
     formInParamsDefault.truthy = true) ∧
    (∀ (key : Option String) (route method : String)
        (entries : List (String × PyVal)),
        buildRequest key route method (.dict entries) formInParamsDefault =
          .ok ⟨pyLower method, "/api/" ++ API_VERSION ++ route,
               some (authForm key entries), Option.none⟩) ∧
    (∀ (key : Option String) (route method : String) (fip : PyVal),
        buildRequest key route method dataDefault fip =
          .error (.attributeError "items")) ∧
    (∀ (st : ClientState) (endpoint : String) (data : PyVal)
        (transport : SentRequest → HttpResponse),
        post_handler st endpoint data transport =
          fireRequest st endpoint "POST" data (.bool false) transport ∧
        put_handler st endpoint data transport =
          fireRequest st endpoint "PUT" data (.bool false) transport ∧
        get_handler st endpoint data transport =
          fireRequest st endpoint "GET" data (.bool true) transport) :=
  ⟨⟨rfl, rfl, rfl⟩, fun _ _ _ _ => rfl, fun _ _ _ _ => rfl,
   fun _ _ _ _ => ⟨rfl, rfl, rfl⟩⟩

end Plemmy
